import Mathlib

/-!
# Verification of the camera-to-speech pipeline core

Shallow embedding of the audio decode-and-playback pipeline and the
sequential orchestration with fallback policy implemented in `src/App.tsx`
(functions `playPCMAudio`, `processImage`, `replayAudio`, `handleFileChange`)
and in the Gemini service module (`GeminiService.extractText`).

Bytes are modelled as `Nat` values below 256, base64 text as `List Char`,
PCM samples as exact rationals (every value `v / 32768` with `v` a 16-bit
integer is exactly representable in the 32-bit floats the code uses, so
rational equality is faithful), and the browser's fallible primitives
(`atob`, the `Int16Array` constructor) as `Option`/`Except` results.
-/

namespace ImatgeASo

/-! ## Base64: the standard alphabet, `btoa`-style encoding and the
`atob` decoder (WHATWG forgiving-base64, modulo whitespace stripping,
which never arises for the payloads at hand). -/

/-- The standard base64 alphabet, index `n` holding the digit of value `n`. -/
def b64Alphabet : List Char :=
  "ABCDEFGHIJKLMNOPQRSTUVWXYZabcdefghijklmnopqrstuvwxyz0123456789+/".toList

/-- The base64 digit for a sextet value (only ever applied below 64). -/
def sextetChar (n : Nat) : Char := b64Alphabet.getD n '?'

/-- Linear scan resolving a character to its position in a digit list. -/
def charSextetAux : List Char → Nat → Char → Option Nat
  | [], _, _ => none
  | a :: rest, i, c => if c = a then some i else charSextetAux rest (i + 1) c

/-- The sextet value of a base64 digit; `none` for characters outside the
alphabet (`atob` raises `InvalidCharacterError` on those). -/
def charSextet (c : Char) : Option Nat := charSextetAux b64Alphabet 0 c

/-- Standard base64 encoding of a byte sequence, three bytes to four
digits, with `=` padding on a trailing group of one or two bytes. -/
def encodeB64 : List Nat → List Char
  | [] => []
  | [b0] => [sextetChar (b0 / 4), sextetChar (b0 % 4 * 16), '=', '=']
  | [b0, b1] =>
      [sextetChar (b0 / 4), sextetChar (b0 % 4 * 16 + b1 / 16),
       sextetChar (b1 % 16 * 4), '=']
  | b0 :: b1 :: b2 :: rest =>
      sextetChar (b0 / 4) :: sextetChar (b0 % 4 * 16 + b1 / 16) ::
      sextetChar (b1 % 16 * 4 + b2 / 64) :: sextetChar (b2 % 64) :: encodeB64 rest

/-- The `window.atob` decoder: groups of four digits yield three bytes; a
final group may carry one or two `=` padding characters (leftover bits are
discarded, as forgiving-base64 prescribes) or be a bare tail of two or
three digits; every other shape, and any character outside the alphabet,
is a decode failure (`atob` throws). -/
def decodeB64 : List Char → Option (List Nat)
  | [] => some []
  | [_] => none
  | [c0, c1] =>
      match charSextet c0, charSextet c1 with
      | some s0, some s1 => some [s0 * 4 + s1 / 16]
      | _, _ => none
  | [c0, c1, c2] =>
      match charSextet c0, charSextet c1, charSextet c2 with
      | some s0, some s1, some s2 =>
          some [s0 * 4 + s1 / 16, s1 % 16 * 16 + s2 / 4]
      | _, _, _ => none
  | c0 :: c1 :: c2 :: c3 :: rest =>
      match charSextet c0, charSextet c1 with
      | some s0, some s1 =>
          if c2 = '=' then
            if c3 = '=' ∧ rest = [] then some [s0 * 4 + s1 / 16] else none
          else
            match charSextet c2 with
            | some s2 =>
                if c3 = '=' then
                  if rest = [] then
                    some [s0 * 4 + s1 / 16, s1 % 16 * 16 + s2 / 4]
                  else none
                else
                  match charSextet c3, decodeB64 rest with
                  | some s3, some tl =>
                      some ((s0 * 4 + s1 / 16) :: (s1 % 16 * 16 + s2 / 4) ::
                            (s2 % 4 * 64 + s3) :: tl)
                  | _, _ => none
            | none => none
      | _, _ => none

/-! ## PCM decode (`playPCMAudio`, lines 84–96 of `App.tsx`):
reinterpret the decoded bytes as little-endian signed 16-bit integers
(the `Int16Array` view) and normalize each by `/ 32768.0`. -/

/-- The signed 16-bit integer stored little-endian as bytes `lo`, `hi`. -/
def toInt16 (lo hi : Nat) : Int :=
  if lo + 256 * hi < 32768 then (lo + 256 * hi : Int)
  else (lo + 256 * hi : Int) - 65536

/-- The `float32Data` loop of `playPCMAudio`: consecutive byte pairs become
normalized samples `int16 / 32768`.  (This coincides with the spec's
"reinterpret as little-endian int16 divided by 32768.0".) -/
def bytesToSamples : List Nat → List ℚ
  | lo :: hi :: rest => (toInt16 lo hi : ℚ) / 32768 :: bytesToSamples rest
  | _ => []

/-- The failure mode of the decode section of `playPCMAudio`: any exception
thrown between `atob` and the `Int16Array` construction. -/
inductive PCMError
  | decodeError
deriving DecidableEq, Repr

/-- The decode section of `playPCMAudio` (`App.tsx` lines 84–96): `atob`
then an `Int16Array` view of the byte buffer.  `atob` throws on malformed
base64; the `Int16Array` constructor throws a `RangeError` when the buffer
length is not a multiple of two.  Either exception propagates out of these
lines to the enclosing handler as a decode error. -/
def playDecodeCore (b64 : List Char) : Except PCMError (List ℚ) :=
  match decodeB64 b64 with
  | none => .error .decodeError
  | some bytes =>
      if bytes.length % 2 = 0 then .ok (bytesToSamples bytes)
      else .error .decodeError

/-! ## Orchestrator data model (`App.tsx`)

React state setters (`setLastText`, …) do not mutate the bindings a render
closure already holds, so the functions below take the render-captured
values as explicit arguments and return the component state that results
from the setters the source applies.  Externally visible actions — the two
Gemini calls, the fallback `speechSynthesis` announcement (`speakStatus`)
and starting a playback source — are recorded as an `Effect` list in the
order the source emits them. -/

/-- One entry of the `SUPPORTED_LANGUAGES` table of `App.tsx`. -/
structure Language where
  code : String
  name : String
  voice : String
  prompt : String
  errorMsg : String
  processingMsg : String
deriving DecidableEq, Repr

/-- The Catalan entry of `SUPPORTED_LANGUAGES`. -/
def langCa : Language :=
  ⟨"ca-ES", "Català", "Kore", "català",
   "No s\x27ha detectat cap text a la imatge. Torna-ho a provar.",
   "Processant..."⟩

/-- The Spanish entry of `SUPPORTED_LANGUAGES`. -/
def langEs : Language :=
  ⟨"es-ES", "Español", "Kore", "español",
   "No se ha detectado texto en la imagen. Inténtalo de nuevo.",
   "Procesando..."⟩

/-- The English entry of `SUPPORTED_LANGUAGES`. -/
def langEn : Language :=
  ⟨"en-US", "English", "Puck", "english",
   "No text detected in the image. Please try again.",
   "Processing..."⟩

/-- The French entry of `SUPPORTED_LANGUAGES`. -/
def langFr : Language :=
  ⟨"fr-FR", "Français", "Fenrir", "français",
   "Aucun texte détecté dans l\x27image. Veuillez réessayer.",
   "Traitement..."⟩

/-- The `SUPPORTED_LANGUAGES` record of `App.tsx`; lookup of any other key
is `undefined`. -/
def SUPPORTED_LANGUAGES : String → Option Language
  | "ca" => some langCa
  | "es" => some langEs
  | "en" => some langEn
  | "fr" => some langFr
  | _ => none

/-- The `OCRResult` interface of the Gemini service module. -/
structure OCRResult where
  text : String
  error : Option String
deriving DecidableEq, Repr

/-- The outcome of one awaited external call: a value, or a rejection
that propagates as an exception into the caller. -/
inductive StageResult (α : Type)
  | ok (value : α)
  | threw
deriving DecidableEq, Repr

/-- The externally visible actions of the orchestration pipeline, in
emission order: the OCR request, the TTS request, a fallback
`speechSynthesis` announcement (`speakStatus`), and starting playback of
a decoded sample buffer. -/
inductive Effect
  | invokeRecognition (prompt : String)
  | invokeSynthesis (text : String) (voice : String)
  | speak (text : String)
  | play (samples : List ℚ)
deriving DecidableEq, Repr

/-- The `catch` branch of `playPCMAudio` (`App.tsx` line 107): announce
the closed-over `lastText` when present, otherwise do nothing. -/
def catchFallback : Option String → List Effect
  | some t => [.speak t]
  | none => []

/-- `playPCMAudio` (`App.tsx` lines 77–109) as the effects it emits.
`lastText` is the value of the `lastText` state variable captured by the
render closure that created this handler — not any value passed to
`setLastText` during the current run.  `playbackOk` models whether the
audio-context, buffer and `source.start()` calls of the try block
succeed; any exception in the try block reaches the same catch. -/
def playPCMAudio (b64 : List Char) (playbackOk : Bool)
    (lastText : Option String) : List Effect :=
  match playDecodeCore b64 with
  | .ok samples => if playbackOk then [.play samples] else catchFallback lastText
  | .error _ => catchFallback lastText

/-- The component state the orchestrator's setters maintain
(`isProcessing`, `error`, `lastText`, `audioData`). -/
structure SessionState where
  isProcessing : Bool
  error : Option String
  lastText : Option String
  audioData : Option (List Char)
deriving DecidableEq, Repr

/-- Line 152 of `App.tsx`: the message set on an unexpected failure —
the Catalan text when the selected language is `ca`, the English text
otherwise. -/
def genericMsg (selectedLang : String) : String :=
  if selectedLang = "ca" then "S\x27ha produït un error." else "An error occurred."

/-- `processImage` (`App.tsx` lines 111–158) as a function of the
render-captured state and the results of the awaited external calls,
returning the emitted effects and the component state after all setters
have been applied (including the `finally` clearing `isProcessing`).
`ocrR` and `ttsR` are the outcomes of the two Gemini calls, `.threw`
standing for a rejection handled by the top-level catch; `playbackOk`
and `lastText0` are as in `playPCMAudio`.  The image-to-base64 step is
an external collaborator and is not modelled. -/
def processImage (cfg : Language) (selectedLang : String)
    (lastText0 : Option String) (ocrR : StageResult OCRResult)
    (ttsR : StageResult (Option (List Char))) (playbackOk : Bool) :
    List Effect × SessionState :=
  match ocrR with
  | .threw =>
      ([.invokeRecognition cfg.prompt, .speak (genericMsg selectedLang)],
       ⟨false, some (genericMsg selectedLang), none, none⟩)
  | .ok ocr =>
      if ocr.error.isSome ∨ ocr.text = "" then
        ([.invokeRecognition cfg.prompt, .speak cfg.errorMsg],
         ⟨false, some cfg.errorMsg, none, none⟩)
      else
        match ttsR with
        | .threw =>
            ([.invokeRecognition cfg.prompt,
              .invokeSynthesis ocr.text cfg.voice,
              .speak (genericMsg selectedLang)],
             ⟨false, some (genericMsg selectedLang), some ocr.text, none⟩)
        | .ok none =>
            ([.invokeRecognition cfg.prompt,
              .invokeSynthesis ocr.text cfg.voice,
              .speak ocr.text],
             ⟨false, none, some ocr.text, none⟩)
        | .ok (some b64) =>
            ([.invokeRecognition cfg.prompt,
              .invokeSynthesis ocr.text cfg.voice] ++
               playPCMAudio b64 playbackOk lastText0,
             ⟨false, none, some ocr.text, some b64⟩)

/-- `replayAudio` (`App.tsx` lines 165–171), reading the committed state
of the current render: replay the stored payload when present, else
announce the stored text, else do nothing. -/
def replayAudio (audioData : Option (List Char)) (lastText : Option String)
    (playbackOk : Bool) : List Effect :=
  match audioData with
  | some b64 => playPCMAudio b64 playbackOk lastText
  | none =>
      match lastText with
      | some t => [.speak t]
      | none => []

/-! ## Recognition Client (`GeminiService.extractText`) -/

/-- JavaScript `String.prototype.trim`: drop leading and trailing
whitespace characters. -/
def jsTrim (s : String) : String :=
  ⟨((s.data.dropWhile Char.isWhitespace).reverse.dropWhile
      Char.isWhitespace).reverse⟩

/-- `GeminiService.extractText` (service module lines 18–44) as a
function of the model call's outcome: `.threw` for a rejected request
(caught by the surrounding try, yielding `API_ERROR`), `.ok r` for a
response whose optional `text` field is `r`.  The source computes
`result.text?.trim() || ""` and maps an empty or literal
`NO_TEXT_FOUND` result to the no-text error. -/
def extractText (apiR : StageResult (Option String)) : OCRResult :=
  match apiR with
  | .threw => ⟨"", some "API_ERROR"⟩
  | .ok r =>
      let text :=
        match r with
        | some s => jsTrim s
        | none => ""
      if text = "NO_TEXT_FOUND" ∨ text = "" then ⟨"", some "NO_TEXT_FOUND"⟩
      else ⟨text, none⟩

/-! ## Single-flight capture model

The capture triggers (camera and gallery buttons, `App.tsx` lines
196–199 and 214–218) are rendered with `disabled={isProcessing}`, so a
click while a pipeline is in flight is a no-op; `processImage` sets
`isProcessing` on entry and clears it in its `finally`. -/

/-- The UI events driving the in-flight bookkeeping. -/
inductive UiEvent
  | clickCapture
  | finishPipeline
deriving DecidableEq, Repr

/-- The concurrency-relevant state: the `isProcessing` flag plus the
number of capture pipelines started and not yet finished. -/
structure FlightState where
  isProcessing : Bool
  inFlight : Nat
deriving DecidableEq, Repr

/-- One UI step: a capture click starts a pipeline only when the trigger
is enabled; pipeline completion clears the flag. -/
def stepApp (s : FlightState) : UiEvent → FlightState
  | .clickCapture => if s.isProcessing then s else ⟨true, s.inFlight + 1⟩
  | .finishPipeline => if s.inFlight = 0 then s else ⟨false, s.inFlight - 1⟩

/-- The app state after a sequence of UI events, from the initial render
(not processing, nothing in flight). -/
def runApp (events : List UiEvent) : FlightState :=
  events.foldl stepApp ⟨false, 0⟩

/-- The coupling `stepApp` maintains between the flag and the in-flight
count. -/
def FlightInv (s : FlightState) : Prop :=
  s.inFlight = if s.isProcessing then 1 else 0

/-! ## Base64 helper lemmas -/

/-- Looking up the digit of a sextet value recovers the value. -/
theorem charSextet_sextetChar :
    ∀ n, n < 64 → charSextet (sextetChar n) = some n := by decide

/-- No base64 digit is the padding character. -/
theorem sextetChar_ne_pad : ∀ n, n < 64 → sextetChar n ≠ '=' := by decide

/-- `atob` inverts the standard base64 encoding on byte sequences. -/
theorem decodeB64_encodeB64 (B : List Nat) (hb : ∀ b ∈ B, b < 256) :
    decodeB64 (encodeB64 B) = some B := by
  induction B using encodeB64.induct with
  | case1 => rfl
  | case2 b0 =>
    have h0 : b0 < 256 := hb b0 (by simp)
    rw [encodeB64, decodeB64]
    rw [charSextet_sextetChar (b0 / 4) (by omega),
        charSextet_sextetChar (b0 % 4 * 16) (by omega)]
    dsimp only
    rw [if_pos rfl, if_pos ⟨rfl, rfl⟩]
    have e0 : b0 / 4 * 4 + b0 % 4 * 16 / 16 = b0 := by omega
    rw [e0]
  | case3 b0 b1 =>
    have h0 : b0 < 256 := hb b0 (by simp)
    have h1 : b1 < 256 := hb b1 (by simp)
    rw [encodeB64, decodeB64]
    rw [charSextet_sextetChar (b0 / 4) (by omega),
        charSextet_sextetChar (b0 % 4 * 16 + b1 / 16) (by omega)]
    dsimp only
    rw [if_neg (sextetChar_ne_pad (b1 % 16 * 4) (by omega))]
    rw [charSextet_sextetChar (b1 % 16 * 4) (by omega)]
    dsimp only
    rw [if_pos rfl, if_pos rfl]
    have e0 : b0 / 4 * 4 + (b0 % 4 * 16 + b1 / 16) / 16 = b0 := by omega
    have e1 : (b0 % 4 * 16 + b1 / 16) % 16 * 16 + b1 % 16 * 4 / 4 = b1 := by
      omega
    rw [e0, e1]
  | case4 b0 b1 b2 rest ih =>
    have h0 : b0 < 256 := hb b0 (by simp)
    have h1 : b1 < 256 := hb b1 (by simp)
    have h2 : b2 < 256 := hb b2 (by simp)
    have hrest : ∀ b ∈ rest, b < 256 := fun b hbm => hb b (by simp [hbm])
    rw [encodeB64, decodeB64]
    rw [charSextet_sextetChar (b0 / 4) (by omega),
        charSextet_sextetChar (b0 % 4 * 16 + b1 / 16) (by omega)]
    dsimp only
    rw [if_neg (sextetChar_ne_pad (b1 % 16 * 4 + b2 / 64) (by omega))]
    rw [charSextet_sextetChar (b1 % 16 * 4 + b2 / 64) (by omega)]
    dsimp only
    rw [if_neg (sextetChar_ne_pad (b2 % 64) (by omega))]
    rw [charSextet_sextetChar (b2 % 64) (by omega), ih hrest]
    dsimp only
    have e0 : b0 / 4 * 4 + (b0 % 4 * 16 + b1 / 16) / 16 = b0 := by omega
    have e1 : (b0 % 4 * 16 + b1 / 16) % 16 * 16 +
        (b1 % 16 * 4 + b2 / 64) / 4 = b1 := by omega
    have e2 : (b1 % 16 * 4 + b2 / 64) % 4 * 64 + b2 % 64 = b2 := by omega
    rw [e0, e1, e2]

/-! ## Claim theorems -/

/-- Claim C1: decoding the base64 encoding of an even-length byte
sequence `B` succeeds and yields exactly the samples obtained by
reinterpreting `B` as little-endian signed 16-bit integers, each divided
by 32768 (`bytesToSamples` is precisely that reinterpretation, and the
rational values are exact, so the floating-point tolerance is met with
equality). -/
theorem c1_decode_roundtrip (B : List Nat) (hb : ∀ b ∈ B, b < 256)
    (heven : B.length % 2 = 0) :
    playDecodeCore (encodeB64 B) = .ok (bytesToSamples B) := by
  simp only [playDecodeCore, decodeB64_encodeB64 B hb]
  rw [if_pos heven]

/-- Claim C1 witness: the 4-byte input `[0x00, 0x00, 0x00, 0x80]`
(int16 values 0 and -32768) decodes to the samples `[0, -1]`. -/
theorem c1_witness :
    playDecodeCore (encodeB64 [0, 0, 0, 128]) = .ok [0, -1] := by
  have h := c1_decode_roundtrip [0, 0, 0, 128] (by decide) (by decide)
  rw [h]
  simp [bytesToSamples, toInt16]

/-- Claim C2: on any input whose decoded byte length is odd, the decode
section of `playPCMAudio` signals a decode error to its caller (the
`Int16Array` construction throws, and the exception propagates out of
the decode lines); the trailing byte is never silently truncated into a
sample buffer. -/
theorem c2_odd_length_error (X : List Char) (bytes : List Nat)
    (hdec : decodeB64 X = some bytes) (hodd : bytes.length % 2 = 1) :
    playDecodeCore X = .error .decodeError := by
  simp only [playDecodeCore, hdec]
  rw [if_neg (by omega)]

/-- Claim C2 witness: a three-byte payload decodes to an odd byte count
and is reported as a decode error. -/
theorem c2_witness :
    playDecodeCore (encodeB64 [0, 0, 0]) = .error .decodeError :=
  c2_odd_length_error (encodeB64 [0, 0, 0]) [0, 0, 0] (by decide) (by decide)

/-- Claim C3, the code evaluated at the failing input: on the first
capture after mount (the render-captured `lastText` is `null`),
recognition succeeds with "Hello" and synthesis returns a three-byte
payload whose decode fails — yet the pipeline emits no announcement at
all: the catch branch of `playPCMAudio` reads the stale closure value of
`lastText`, not the text recognized during this run, so the user hears
nothing although recognition succeeded. -/
theorem c3_stale_fallback :
    (processImage langEn "en" none (.ok ⟨"Hello", none⟩)
        (.ok (some (encodeB64 [0, 0, 0]))) true).1 =
      [.invokeRecognition "english", .invokeSynthesis "Hello" "Puck"] := by
  rfl

/-- Claim C4: when recognition reports `NO_TEXT_FOUND` (or empty text),
the orchestrator sets the localized no-text message as the last error,
announces exactly that message, finishes, and never invokes the
Synthesis Client. -/
theorem c4_no_text_stops (cfg : Language) (lang : String)
    (lt0 : Option String) (ocr : OCRResult)
    (ttsR : StageResult (Option (List Char))) (pOk : Bool)
    (h : ocr.error = some "NO_TEXT_FOUND" ∨ ocr.text = "") :
    processImage cfg lang lt0 (.ok ocr) ttsR pOk =
      ([.invokeRecognition cfg.prompt, .speak cfg.errorMsg],
       ⟨false, some cfg.errorMsg, none, none⟩) ∧
    ∀ t v, Effect.invokeSynthesis t v ∉
      (processImage cfg lang lt0 (.ok ocr) ttsR pOk).1 := by
  have hcond : ocr.error.isSome ∨ ocr.text = "" := by
    cases h with
    | inl h => exact Or.inl (by simp [h])
    | inr h => exact Or.inr h
  have heq : processImage cfg lang lt0 (.ok ocr) ttsR pOk =
      ([.invokeRecognition cfg.prompt, .speak cfg.errorMsg],
       ⟨false, some cfg.errorMsg, none, none⟩) := by
    simp only [processImage]
    rw [if_pos hcond]
  refine ⟨heq, ?_⟩
  intro t v
  rw [heq]
  simp

/-- Claim C4 witness: a `NO_TEXT_FOUND` recognition result under the
Catalan configuration announces the Catalan no-text message and emits no
synthesis request. -/
theorem c4_witness :
    processImage langCa "ca" none (.ok ⟨"", some "NO_TEXT_FOUND"⟩)
        (.ok none) true =
      ([.invokeRecognition "català",
        .speak "No s\x27ha detectat cap text a la imatge. Torna-ho a provar."],
       ⟨false,
        some "No s\x27ha detectat cap text a la imatge. Torna-ho a provar.",
        none, none⟩) :=
  (c4_no_text_stops langCa "ca" none ⟨"", some "NO_TEXT_FOUND"⟩
      (.ok none) true (Or.inl rfl)).1

/-- Claim C5: when recognition returns non-empty text and synthesis
returns no payload, the orchestrator announces exactly that text via the
fallback announcer and never starts playback. -/
theorem c5_no_payload_fallback (cfg : Language) (lang : String)
    (lt0 : Option String) (ocr : OCRResult) (pOk : Bool)
    (herr : ocr.error = none) (htext : ocr.text ≠ "") :
    processImage cfg lang lt0 (.ok ocr) (.ok none) pOk =
      ([.invokeRecognition cfg.prompt, .invokeSynthesis ocr.text cfg.voice,
        .speak ocr.text],
       ⟨false, none, some ocr.text, none⟩) ∧
    ∀ s, Effect.play s ∉
      (processImage cfg lang lt0 (.ok ocr) (.ok none) pOk).1 := by
  have hcond : ¬(ocr.error.isSome ∨ ocr.text = "") := by
    simp [herr, htext]
  have heq : processImage cfg lang lt0 (.ok ocr) (.ok none) pOk =
      ([.invokeRecognition cfg.prompt, .invokeSynthesis ocr.text cfg.voice,
        .speak ocr.text],
       ⟨false, none, some ocr.text, none⟩) := by
    simp only [processImage]
    rw [if_neg hcond]
  refine ⟨heq, ?_⟩
  intro s
  rw [heq]
  simp

/-- Claim C5 witness: recognized text "Hello" with an absent synthesis
payload is announced verbatim and nothing is played. -/
theorem c5_witness :
    processImage langEn "en" none (.ok ⟨"Hello", none⟩) (.ok none) true =
      ([.invokeRecognition "english", .invokeSynthesis "Hello" "Puck",
        .speak "Hello"],
       ⟨false, none, some "Hello", none⟩) :=
  (c5_no_payload_fallback langEn "en" none ⟨"Hello", none⟩ true rfl
      (by decide)).1

/-- Claim C6: when recognition returns non-empty text and synthesis
returns a payload that decodes and plays without error, the orchestrator
plays exactly the decoded samples (decoder feeding the playback engine)
and never invokes the fallback announcer. -/
theorem c6_payload_plays (cfg : Language) (lang : String)
    (lt0 : Option String) (ocr : OCRResult) (b64 : List Char)
    (samples : List ℚ) (herr : ocr.error = none) (htext : ocr.text ≠ "")
    (hdec : playDecodeCore b64 = .ok samples) :
    processImage cfg lang lt0 (.ok ocr) (.ok (some b64)) true =
      ([.invokeRecognition cfg.prompt, .invokeSynthesis ocr.text cfg.voice,
        .play samples],
       ⟨false, none, some ocr.text, some b64⟩) ∧
    ∀ t, Effect.speak t ∉
      (processImage cfg lang lt0 (.ok ocr) (.ok (some b64)) true).1 := by
  have hcond : ¬(ocr.error.isSome ∨ ocr.text = "") := by
    simp [herr, htext]
  have heq : processImage cfg lang lt0 (.ok ocr) (.ok (some b64)) true =
      ([.invokeRecognition cfg.prompt, .invokeSynthesis ocr.text cfg.voice,
        .play samples],
       ⟨false, none, some ocr.text, some b64⟩) := by
    simp only [processImage]
    rw [if_neg hcond]
    simp [playPCMAudio, hdec]
  refine ⟨heq, ?_⟩
  intro t
  rw [heq]
  simp

/-- Claim C6 witness: a valid even-length payload is decoded and its
samples played, with no fallback announcement. -/
theorem c6_witness :
    processImage langEn "en" none (.ok ⟨"Bonjour", none⟩)
        (.ok (some (encodeB64 [0, 0, 0, 128]))) true =
      ([.invokeRecognition "english", .invokeSynthesis "Bonjour" "Puck",
        .play (bytesToSamples [0, 0, 0, 128])],
       ⟨false, none, some "Bonjour", some (encodeB64 [0, 0, 0, 128])⟩) :=
  (c6_payload_plays langEn "en" none ⟨"Bonjour", none⟩
      (encodeB64 [0, 0, 0, 128]) (bytesToSamples [0, 0, 0, 128]) rfl
      (by decide) rfl).1

/-- Claim C7: the replay operation plays the stored payload when one is
present, announces the stored text when only text is present, and is a
silent no-op when the session holds neither. -/
theorem c7_replay (lt : Option String) (pOk : Bool) :
    (∀ b64 samples, playDecodeCore b64 = .ok samples →
        replayAudio (some b64) lt true = [.play samples]) ∧
    (∀ t, replayAudio none (some t) pOk = [.speak t]) ∧
    replayAudio none none pOk = [] := by
  refine ⟨?_, fun t => rfl, rfl⟩
  intro b64 samples hdec
  simp [replayAudio, playPCMAudio, hdec]

/-- Claim C7 witness: replay of a stored valid payload plays its
samples; replay with only stored text announces it; replay with nothing
stored does nothing. -/
theorem c7_witness :
    replayAudio (some (encodeB64 [0, 0, 0, 128])) none true =
      [.play (bytesToSamples [0, 0, 0, 128])] ∧
    replayAudio none (some "Hello") true = [.speak "Hello"] ∧
    replayAudio none none true = [] :=
  ⟨(c7_replay none true).1 (encodeB64 [0, 0, 0, 128])
      (bytesToSamples [0, 0, 0, 128]) rfl,
   (c7_replay none true).2.1 "Hello",
   (c7_replay none true).2.2⟩

/-- Every `stepApp` transition preserves the flag/in-flight coupling. -/
theorem flightInv_step (s : FlightState) (e : UiEvent) (hs : FlightInv s) :
    FlightInv (stepApp s e) := by
  unfold FlightInv at *
  cases e with
  | clickCapture =>
    by_cases hp : s.isProcessing
    · simp [stepApp, hp] at hs ⊢
      omega
    · simp [stepApp, hp] at hs ⊢
      omega
  | finishPipeline =>
    by_cases hz : s.inFlight = 0
    · simp [stepApp, hz] at hs ⊢
      omega
    · simp [stepApp, hz] at hs ⊢
      split at hs <;> omega

/-- The coupling is preserved along any event sequence. -/
theorem flightInv_foldl (events : List UiEvent) :
    ∀ s : FlightState, FlightInv s →
      FlightInv (events.foldl stepApp s) := by
  induction events with
  | nil => intro s hs; exact hs
  | cons e rest ih =>
    intro s hs
    exact ih (stepApp s e) (flightInv_step s e hs)

/-- Claim C8: along every sequence of UI events from the initial render,
at most one capture pipeline is ever in flight, and a capture click
arriving while one is processing is a no-op (the trigger is disabled),
so a second capture never starts while the first is still running. -/
theorem c8_single_flight :
    (∀ events, (runApp events).inFlight ≤ 1) ∧
    (∀ s : FlightState, s.isProcessing = true →
      stepApp s .clickCapture = s) := by
  constructor
  · intro events
    have h := flightInv_foldl events ⟨false, 0⟩ (by simp [FlightInv])
    unfold FlightInv at h
    unfold runApp
    split at h <;> omega
  · intro s hs
    simp [stepApp, hs]

/-- Claim C8 witness: a second click while a pipeline is in flight
changes nothing, and a click-click trace leaves at most one pipeline in
flight. -/
theorem c8_witness :
    stepApp ⟨true, 1⟩ .clickCapture = ⟨true, 1⟩ ∧
    (runApp [.clickCapture, .clickCapture]).inFlight ≤ 1 :=
  ⟨c8_single_flight.2 ⟨true, 1⟩ rfl,
   c8_single_flight.1 [.clickCapture, .clickCapture]⟩

/-- Claim C9 counterexample: with active language Spanish an unexpected
failure announces "An error occurred." — the identical English text used
for every non-Catalan language — although the app's genuinely localized
messages for Spanish and English differ; the generic message is
therefore not localized to the active language. -/
theorem c9_counterexample :
    (processImage langEs "es" none .threw (.ok none) true).1 =
      [.invokeRecognition "español", .speak "An error occurred."] ∧
    genericMsg "es" = genericMsg "en" ∧
    langEs.errorMsg ≠ langEn.errorMsg :=
  ⟨rfl, rfl, by decide⟩

/-- Claim C9 as amended: every uncaught failure in the pipeline is
caught at the top level, the generic message — Catalan when the active
language is `ca`, the English text otherwise — is set as the last error
and announced, and the run always finishes with the in-progress flag
cleared: no exception escapes the orchestrator. -/
theorem c9_generic_catch (cfg : Language) (lang : String)
    (lt0 : Option String) (ocrR : StageResult OCRResult)
    (ttsR : StageResult (Option (List Char))) (pOk : Bool) :
    (processImage cfg lang lt0 ocrR ttsR pOk).2.isProcessing = false ∧
    (ocrR = .threw →
      processImage cfg lang lt0 ocrR ttsR pOk =
        ([.invokeRecognition cfg.prompt, .speak (genericMsg lang)],
         ⟨false, some (genericMsg lang), none, none⟩)) ∧
    (∀ ocr, ocrR = .ok ocr → ¬(ocr.error.isSome ∨ ocr.text = "") →
      ttsR = .threw →
      processImage cfg lang lt0 ocrR ttsR pOk =
        ([.invokeRecognition cfg.prompt,
          .invokeSynthesis ocr.text cfg.voice,
          .speak (genericMsg lang)],
         ⟨false, some (genericMsg lang), some ocr.text, none⟩)) := by
  refine ⟨?_, ?_, ?_⟩
  · cases ocrR with
    | threw => rfl
    | ok ocr =>
      simp only [processImage]
      split
      · rfl
      · cases ttsR with
        | threw => rfl
        | ok payload => cases payload <;> rfl
  · rintro rfl
    rfl
  · rintro ocr rfl hcond rfl
    simp only [processImage]
    rw [if_neg hcond]

/-- Claim C9 witness: a rejected recognition call under the Catalan
configuration is caught, the Catalan generic message is set and
announced, and processing ends. -/
theorem c9_witness :
    processImage langCa "ca" none .threw (.ok none) true =
      ([.invokeRecognition "català", .speak "S\x27ha produït un error."],
       ⟨false, some "S\x27ha produït un error.", none, none⟩) :=
  (c9_generic_catch langCa "ca" none .threw (.ok none) true).2.1 rfl

/-- Claim C10: `extractText` is total at its interface — every outcome of
the model call yields an `OCRResult` (a rejection is caught and mapped to
`API_ERROR`); the result carries `NO_TEXT_FOUND` whenever the trimmed
response is empty or the literal string `NO_TEXT_FOUND`; the text field
is empty in every error case; and a non-empty text is returned exactly
when no error is set. -/
theorem c10_extractText_contract (apiR : StageResult (Option String)) :
    ((extractText apiR).text ≠ "" ↔ (extractText apiR).error = none) ∧
    (apiR = .threw → extractText apiR = ⟨"", some "API_ERROR"⟩) ∧
    (∀ s, apiR = .ok (some s) →
      (jsTrim s = "" ∨ jsTrim s = "NO_TEXT_FOUND") →
      extractText apiR = ⟨"", some "NO_TEXT_FOUND"⟩) ∧
    (apiR = .ok none → extractText apiR = ⟨"", some "NO_TEXT_FOUND"⟩) ∧
    ((extractText apiR).error.isSome → (extractText apiR).text = "") := by
  refine ⟨?_, ?_, ?_, ?_, ?_⟩
  · cases apiR with
    | threw => simp [extractText]
    | ok r =>
      cases r with
      | none => simp [extractText]
      | some s =>
        simp only [extractText]
        split
        · simp
        · rename_i hcond
          simp only [not_or] at hcond
          simp [hcond.2]
  · rintro rfl; rfl
  · rintro s rfl h
    simp only [extractText]
    rw [if_pos (Or.symm h)]
  · rintro rfl; rfl
  · cases apiR with
    | threw => simp [extractText]
    | ok r =>
      cases r with
      | none => simp [extractText]
      | some s =>
        simp only [extractText]
        split <;> simp


/-- Claim C10 witness: a whitespace-only response and a padded literal
`NO_TEXT_FOUND` response both report the no-text error with empty text,
a rejected call reports `API_ERROR`, and a genuine text is returned
trimmed with no error set. -/
theorem c10_witness :
    extractText (.ok (some "  NO_TEXT_FOUND  ")) =
      ⟨"", some "NO_TEXT_FOUND"⟩ ∧
    extractText (.ok (some "   ")) = ⟨"", some "NO_TEXT_FOUND"⟩ ∧
    extractText .threw = ⟨"", some "API_ERROR"⟩ ∧
    ((extractText (.ok (some " Hola "))).text ≠ "" ↔
      (extractText (.ok (some " Hola "))).error = none) :=
  ⟨(c10_extractText_contract (.ok (some "  NO_TEXT_FOUND  "))).2.2.1
      "  NO_TEXT_FOUND  " rfl (Or.inr (by decide)),
   (c10_extractText_contract (.ok (some "   "))).2.2.1 "   " rfl
      (Or.inl (by decide)),
   (c10_extractText_contract .threw).2.1 rfl,
   (c10_extractText_contract (.ok (some " Hola "))).1⟩

end ImatgeASo
